import Mathlib

/-!
Verification of the canonical field-mapping and reconciliation layer of the
covid-data-public repository: the field registry (`common_fields.py`), the
rename/reconcile helper (`scripts/helpers.py`, `rename_fields`) and the
Covid County Data query helpers (`scripts/ccd_helpers.py`).

Modelling conventions:
* Cell values are rationals (`Val`); pandas columns are `(name, values)` pairs
  and a `DataFrame` is the list of its columns in order.
* A field enumeration (`FieldNameAndCommonField` subclass) is a list of
  `(native_name, optional canonical value)` entries; `@enum.unique` makes the
  native names distinct, which appears as a `Nodup` hypothesis where needed.
* Python `set`s are modelled as deduplicated lists; only membership in them is
  ever used by the properties proved here.
* Exceptions (`AssertionError`, pandas `KeyError`) are modelled with
  `Except String`.
-/

/-- Scalar cell value of a table. -/
abbrev Val := ℚ

/-- A pandas DataFrame: named columns, in order, each holding its values. -/
structure DataFrame where
  cols : List (String × List Val)
deriving DecidableEq

/-- One `FieldNameAndCommonField` enumeration: entries pair the native column
name (the enum value) with the optional `CommonFields` value it maps to. -/
abbrev FieldMapping := List (String × Option String)

/-- Lookup `GetByValueMixin.get` on a field enumeration: `_value2member_map_.get(value,
None)` — the member whose value equals `col`, or `none`; never raises. -/
def getByValue (fields : FieldMapping) (col : String) : Option (String × Option String) :=
  fields.find? (fun e => e.1 == col)

/-- The guard `if field and field.common_field:` in `rename_fields`: the looked
up member must be truthy (its value, a `str`, is non-empty — a `CommonFields`
member is always a non-empty string, so the second conjunct is `isSome`).
Returns the canonical value when the guard holds. -/
def matchedCanon (fields : FieldMapping) (col : String) : Option String :=
  match getByValue fields col with
  | some (v, some cf) => if v = "" then none else some cf
  | _ => none

/-- The loop of `rename_fields` building the rename dict: for each column, if
it matches a field with a common field, raise `AssertionError` when the field
value is already a key of `rename`, otherwise append `value -> common_field`.
(When `getByValue` succeeds its entry's name equals the probed column, so the
source's `field.value` is written `col` here.) -/
def buildRename (fields : FieldMapping) :
    List String → List (String × String) → Except String (List (String × String))
  | [], rename => .ok rename
  | col :: rest, rename =>
    match matchedCanon fields col with
    | some cf =>
      if (rename.map Prod.fst).contains col then
        .error ("Field " ++ col ++ " misconfigured")
      else
        buildRename fields rest (rename ++ [(col, cf)])
    | none => buildRename fields rest rename

/-- Column selection `df.loc[:, keys]`: for each requested label, in order, all columns carrying
that label; a label matching no column raises `KeyError`. -/
def selectCols (cols : List (String × List Val)) :
    List String → Except String (List (String × List Val))
  | [] => .ok []
  | k :: rest =>
    let hit := cols.filter (fun c => c.1 == k)
    if hit.isEmpty then .error ("KeyError: " ++ k)
    else
      match selectCols cols rest with
      | .error e => .error e
      | .ok r => .ok (hit ++ r)

/-- Renaming `.rename(columns=rename)`: a column whose name is a key of the dict gets
the mapped name, others keep theirs. -/
def applyRename (rename : List (String × String)) (cols : List (String × List Val)) :
    List (String × List Val) :=
  cols.map (fun c => (((rename.find? (fun e => e.1 == c.1)).map Prod.snd).getD c.1, c.2))

/-- Substitution `re.sub(r"(?<!^)(?=[A-Z])", "_", s)` on the characters after the first:
an underscore is inserted before every ASCII capital. -/
def insertUnderscores : List Char → List Char
  | [] => []
  | c :: rest => (if c.isUpper then ['_', c] else [c]) ++ insertUnderscores rest

/-- Conversion `re.sub(r"(?<!^)(?=[A-Z])", "_", extra_field).upper()` (ASCII). -/
def enumNameOf (s : String) : String :=
  String.mk ((match s.toList with
    | [] => []
    | c :: rest => c :: insertUnderscores rest).map Char.toUpper)

/-- The line printed for one extra field:
`f'    {enum_name} = "{extra_field}", None'`. -/
def suggestionLine (extra_field : String) : String :=
  "    " ++ enumNameOf extra_field ++ " = \"" ++ extra_field ++ "\", None"

/-- Difference `set(df.columns) - set(fields) - already_transformed_fields` (a str-mixin
enum member hashes and compares like its value, so subtracting `set(fields)`
removes exactly the native names). -/
def extraFields (fields : FieldMapping) (already_transformed_fields : List String)
    (colNames : List String) : List String :=
  colNames.dedup.filter (fun c => (getByValue fields c).isNone && !(already_transformed_fields.contains c))

/-- Difference `set(fields) - set(df.columns)`: every declared native name absent from the
columns, whether or not its entry carries a common field. -/
def missingFields (fields : FieldMapping) (colNames : List String) : List String :=
  (fields.map Prod.fst).dedup.filter (fun v => !(colNames.contains v))

/-- The observable outcome of one `rename_fields` call: the two optional
structured warnings (carrying the sets they name), the printed enum
suggestions, and the returned DataFrame or the raised exception. -/
structure RenameOutput where
  extraWarning : Option (List String)
  suggestions : List String
  missingWarning : Option (List String)
  result : Except String DataFrame

deriving instance DecidableEq for Except

deriving instance DecidableEq for RenameOutput

/-- Embedding of `scripts/helpers.py` `rename_fields(df, fields, already_transformed_fields,
log, check_extra_fields)`: warn about extra and missing columns, build the
rename dict seeded with identity entries for `already_transformed_fields`,
select the dict's keys and rename. Python iterates the
`already_transformed_fields` set in an unspecified order; the order of the
given list stands in for it (no property proved below depends on it). -/
def rename_fields (df : DataFrame) (fields : FieldMapping)
    (already_transformed_fields : List String) (check_extra_fields : Bool) : RenameOutput :=
  let colNames := df.cols.map Prod.fst
  let extra := extraFields fields already_transformed_fields colNames
  let missing := missingFields fields colNames
  { extraWarning := if check_extra_fields && !extra.isEmpty then some extra else none
    suggestions := if check_extra_fields && !extra.isEmpty then extra.map suggestionLine else []
    missingWarning := if !missing.isEmpty then some missing else none
    result :=
      match buildRename fields colNames (already_transformed_fields.map (fun f => (f, f))) with
      | .error e => .error e
      | .ok rename =>
        match selectCols df.cols (rename.map Prod.fst) with
        | .error e => .error e
        | .ok sel => .ok ⟨applyRename rename sel⟩ }

/-- One row of the long-format Covid County Data table (`ccd_helpers.py`
`Fields`): the dimension columns and the value. -/
structure CcdRow where
  provider : String
  date : String
  location_type : String
  location : String
  variable_name : String
  measurement : String
  unit : String
  age : String
  race : String
  sex : String
  value : Val
deriving DecidableEq

/-- Embedding of `ccd_helpers.py` `ScraperVariable`: a variable specification; the `age`,
`race` and `sex` fields default to `"all"` at construction sites. -/
structure ScraperVariable where
  variable_name : String
  measurement : String
  provider : String
  unit : String
  age : String
  race : String
  sex : String
  common_field : Option String
deriving DecidableEq

/-- Embedding of `CovidCountyDataset.query_variable_for_provider`: the boolean mask over the
rows; `if unit:` applies the unit conjunct only for a truthy (non-`None`,
non-empty) unit. -/
def query_variable_for_provider (timeseries : List CcdRow)
    (variable_name measurement provider : String) (unit : Option String) : List CcdRow :=
  timeseries.filter (fun r =>
    (r.provider == provider && r.variable_name == variable_name
      && r.measurement == measurement
      && r.age == "all" && r.race == "all" && r.sex == "all")
    && (match unit with
        | some u => if u = "" then true else r.unit == u
        | none => true))

/-- The per-variable mask of `query_multiple_variables`; `if variable.unit:`
applies the unit conjunct only for a non-empty unit string. -/
def is_selected_data (v : ScraperVariable) (r : CcdRow) : Bool :=
  (r.provider == v.provider && r.variable_name == v.variable_name
    && r.measurement == v.measurement
    && r.age == v.age && r.race == v.race && r.sex == v.sex)
  && (if v.unit = "" then true else r.unit == v.unit)

/-- The loop body of `query_multiple_variables`: select the variable's rows and,
when `variable.common_field` is truthy (a `CommonFields` member is a non-empty
string), overwrite the `variable_name` column with it. -/
def selectForVariable (timeseries : List CcdRow) (v : ScraperVariable) : List CcdRow :=
  let data := timeseries.filter (is_selected_data v)
  match v.common_field with
  | some cf => data.map (fun r => { r with variable_name := cf })
  | none => data

/-- The distinct `(location, dt, location_type)` index tuples of the combined
selection (`pivot_table` index). -/
def pivotKeys (combined : List CcdRow) : List (String × String × String) :=
  (combined.map (fun r => (r.location, r.date, r.location_type))).dedup

/-- The distinct variable names of the combined selection (`pivot_table`
columns). -/
def pivotColumnNames (combined : List CcdRow) : List String :=
  (combined.map (fun r => r.variable_name)).dedup

/-- The values feeding one `(index, variable)` cell of the pivot. -/
def cellValues (combined : List CcdRow) (key : String × String × String)
    (vn : String) : List Val :=
  (combined.filter (fun r =>
      r.location == key.1 && r.date == key.2.1 && r.location_type == key.2.2
        && r.variable_name == vn)).map (fun r => r.value)

/-- Default `pivot_table` aggregation `aggfunc="mean"`: the arithmetic mean
of the cell's values, or an empty (NaN) cell when no row feeds it. -/
def meanVal (vals : List Val) : Option Val :=
  if vals.isEmpty then none else some (vals.sum / (vals.length : Val))

/-- One row of the wide result of `query_multiple_variables`, after the index
reset and the rename to `fips` / `date` / `aggregate_level`. -/
structure WideRow where
  fips : String
  date : String
  aggregate_level : String
  cells : List (String × Option Val)
deriving DecidableEq

/-- Embedding of `CovidCountyDataset.query_multiple_variables`: select each variable's rows
(relabelling `variable_name` to the common field when present), concatenate
(`pd.concat` raises on an empty list of objects) and pivot with `pivot_table`,
whose default `aggfunc="mean"` aggregates every `(index, variable)` cell.
`pivot_table` sorts the index and column labels; the properties proved below
do not depend on row or column order, and first-occurrence order stands in
for the sorted order here. -/
def query_multiple_variables (timeseries : List CcdRow)
    (vars : List ScraperVariable) : Except String (List WideRow) :=
  if vars.isEmpty then .error "No objects to concatenate"
  else
    let combined := vars.flatMap (selectForVariable timeseries)
    .ok ((pivotKeys combined).map (fun k =>
      { fips := k.1
        date := k.2.1
        aggregate_level := k.2.2
        cells := (pivotColumnNames combined).map (fun vn =>
          (vn, meanVal (cellValues combined k vn))) }))

/-- The values of the `CommonFields` enumeration (`common_fields.py`), in
declaration order. -/
def commonFieldsValues : List String :=
  ["fips", "date", "location_id", "state", "country", "county", "aggregate_level",
   "state_full_name", "cases", "deaths", "recovered", "new_cases", "new_deaths",
   "weekly_new_cases", "weekly_new_deaths", "model_abbr", "forecast_date",
   "quantile", "cumulative_hospitalized", "cumulative_icu", "positive_tests",
   "negative_tests", "total_tests", "positive_tests_viral", "positive_cases_viral",
   "total_tests_viral", "total_tests_people_viral", "total_test_encounters_viral",
   "current_icu", "current_hospitalized", "current_ventilated", "population",
   "staffed_beds", "licensed_beds", "icu_beds", "all_beds_occupancy_rate",
   "icu_occupancy_rate", "max_bed_count", "ventilator_capacity",
   "hospital_beds_in_use_any", "current_hospitalized_total", "current_icu_total",
   "contact_tracers_count", "latitude", "longitude", "test_positivity"]

/-- Lookup `GetByValueMixin.get` specialised to `CommonFields`: the member (identified
with its string value) whose value equals `v`, or `None`. -/
def commonFieldsGet (v : String) : Option String :=
  commonFieldsValues.find? (fun x => x == v)

/-- The `Fields` enumeration of `ccd_helpers.py`: native parquet column names
and the `CommonFields` they map to. -/
def ccdFields : FieldMapping :=
  [("provider", none), ("dt", some "date"), ("location_type", some "aggregate_level"),
   ("location", some "fips"), ("variable_name", none), ("measurement", none),
   ("unit", none), ("age", none), ("race", none), ("sex", none), ("value", none)]

/-- The spec's description of reconcile's column matching: the canonical field
of the mapping entry whose native name is `c`, when that entry exists and its
canonical field is non-absent. -/
def claimCanonical (fields : FieldMapping) (c : String) : Option String :=
  (getByValue fields c).bind Prod.snd

/-- The spec's description of `query_variable_for_provider`'s row predicate:
provider, variable_name and measurement equal the arguments, age, race and sex
equal `"all"`, and the unit equals the argument when one is given. -/
def claimSelected (variable_name measurement provider : String) (unit : Option String)
    (r : CcdRow) : Bool :=
  r.provider == provider && r.variable_name == variable_name
    && r.measurement == measurement
    && r.age == "all" && r.race == "all" && r.sex == "all"
    && (match unit with
        | some u => r.unit == u
        | none => true)

/-- The per-variable row predicate of `query_multiple_variables` with the unit
conjunct omitted. -/
def claimSelectedNoUnit (v : ScraperVariable) (r : CcdRow) : Bool :=
  r.provider == v.provider && r.variable_name == v.variable_name
    && r.measurement == v.measurement
    && r.age == v.age && r.race == v.race && r.sex == v.sex

/-- Sample long-format rows and variable used as concrete inputs: two rows
identical in every dimension but holding the values 1 and 3. -/
def cexRowA : CcdRow :=
  ⟨"cdc", "2020-01-01", "state", "01", "cases", "new", "people", "all", "all", "all", 1⟩

def cexRowB : CcdRow :=
  ⟨"cdc", "2020-01-01", "state", "01", "cases", "new", "people", "all", "all", "all", 3⟩

def cexVariable : ScraperVariable :=
  ⟨"cases", "new", "cdc", "", "all", "all", "all", none⟩

/-- The pairs appended to the rename dict by the loop of `rename_fields`, for a
given column list: one `native -> canonical` pair per matched column. -/
def renameListOf (fields : FieldMapping) (cols : List String) : List (String × String) :=
  cols.filterMap (fun c => (matchedCanon fields c).map (fun cf => (c, cf)))

/-- The columns of a DataFrame that match a mapping entry passing the
`field and field.common_field` guard. -/
def matchedCols (fields : FieldMapping) (cols : List (String × List Val)) :
    List (String × List Val) :=
  cols.filter (fun c => (matchedCanon fields c.1).isSome)

/-- The columns selected by the identity entries of the rename dict, in
`already_transformed_fields` order. -/
def alreadyCols (already : List String) (cols : List (String × List Val)) :
    List (String × List Val) :=
  already.flatMap (fun f => cols.filter (fun c => c.1 == f))

/-- The final name a selected column receives: itself for an
already-transformed column, its canonical value for a matched one. -/
def renamedCol (fields : FieldMapping) (already : List String) (c : String × List Val) :
    String × List Val :=
  (if already.contains c.1 then c.1 else (matchedCanon fields c.1).getD c.1, c.2)

theorem find?_beq_eq_some_iff (l : List String) (v f : String) :
    l.find? (fun x => x == v) = some f ↔ (f = v ∧ v ∈ l) := by
  induction l with
  | nil => simp
  | cons a l ih =>
    by_cases hav : a = v
    · subst hav
      simp [List.find?_cons_of_pos, eq_comm]
    · rw [List.find?_cons_of_neg _ (by simpa using hav), ih]
      constructor
      · rintro ⟨rfl, hv⟩
        exact ⟨rfl, List.mem_cons_of_mem _ hv⟩
      · rintro ⟨rfl, hv⟩
        rcases List.mem_cons.1 hv with h | h
        · exact absurd h.symm hav
        · exact ⟨rfl, h⟩

theorem find?_key_eq_some_iff {β : Type} (l : List (String × β)) (v : String)
    (hnd : (l.map Prod.fst).Nodup) (e : String × β) :
    l.find? (fun x => x.1 == v) = some e ↔ (e ∈ l ∧ e.1 = v) := by
  induction l with
  | nil => simp
  | cons a l ih =>
    rw [List.map_cons, List.nodup_cons] at hnd
    by_cases hav : a.1 = v
    · rw [List.find?_cons_of_pos _ (by simpa using hav)]
      constructor
      · rintro h
        cases h
        exact ⟨List.mem_cons_self _ _, hav⟩
      · rintro ⟨he, hev⟩
        rcases List.mem_cons.1 he with rfl | he
        · rfl
        · exact absurd (hav ▸ hev ▸ List.mem_map_of_mem Prod.fst he) hnd.1
    · rw [List.find?_cons_of_neg _ (by simpa using hav), ih hnd.2]
      constructor
      · rintro ⟨he, hev⟩
        exact ⟨List.mem_cons_of_mem _ he, hev⟩
      · rintro ⟨he, hev⟩
        rcases List.mem_cons.1 he with rfl | he
        · exact absurd hev hav
        · exact ⟨he, hev⟩

/-- C8: `GetByValueMixin.get` (on `CommonFields` and on the CCD `Fields`
enumeration) returns the unique field whose string encoding equals `v` when one
exists and `None` otherwise; being a total function it never raises. -/
theorem getByValue_lookup_spec :
    ∀ v : String,
      (∀ f, commonFieldsGet v = some f ↔ (f ∈ commonFieldsValues ∧ f = v)) ∧
      (commonFieldsGet v = none ↔ v ∉ commonFieldsValues) ∧
      (∀ e, getByValue ccdFields v = some e ↔ (e ∈ ccdFields ∧ e.1 = v)) ∧
      (getByValue ccdFields v = none ↔ ∀ e ∈ ccdFields, e.1 ≠ v) := by
  intro v
  refine ⟨fun f => ?_, ?_, fun e => ?_, ?_⟩
  · rw [commonFieldsGet, find?_beq_eq_some_iff]
    constructor
    · rintro ⟨rfl, hv⟩
      exact ⟨hv, rfl⟩
    · rintro ⟨hf, rfl⟩
      exact ⟨rfl, hf⟩
  · rw [commonFieldsGet, List.find?_eq_none]
    constructor
    · intro h hv
      exact absurd (beq_self_eq_true v) (by simpa using h v hv)
    · intro h x hx
      intro hbeq
      exact h (by rwa [show x = v from by simpa using hbeq] at hx)
  · exact find?_key_eq_some_iff ccdFields v (by decide) e
  · rw [getByValue, List.find?_eq_none]
    constructor
    · intro h e he hev
      exact absurd (by simpa using hev) (h e he)
    · intro h e he
      simpa using h e he

theorem getByValue_lookup_spec_witness :
    ((∀ f, commonFieldsGet "cases" = some f ↔ (f ∈ commonFieldsValues ∧ f = "cases")) ∧
      (commonFieldsGet "cases" = none ↔ "cases" ∉ commonFieldsValues) ∧
      (∀ e, getByValue ccdFields "cases" = some e ↔ (e ∈ ccdFields ∧ e.1 = "cases")) ∧
      (getByValue ccdFields "cases" = none ↔ ∀ e ∈ ccdFields, e.1 ≠ "cases")) :=
  getByValue_lookup_spec "cases"

/-- C7: `query_variable_for_provider` returns exactly the rows matching
provider, variable_name, measurement and age = race = sex = `"all"`,
additionally filtered by the unit when a (non-empty) one is given; the rows are
returned as-is, with no aggregation. -/
theorem query_variable_for_provider_spec (timeseries : List CcdRow)
    (variable_name measurement provider : String) (unit : Option String)
    (hunit : unit ≠ some "") :
    query_variable_for_provider timeseries variable_name measurement provider unit
      = timeseries.filter (claimSelected variable_name measurement provider unit) := by
  unfold query_variable_for_provider claimSelected
  apply List.filter_congr
  intro r _
  cases unit with
  | none => rfl
  | some u =>
    have hu : ¬ u = "" := fun he => hunit (by rw [he])
    simp [hu]

theorem query_variable_for_provider_spec_witness :
    ((some "people" : Option String) ≠ some "") ∧
      query_variable_for_provider [cexRowA] "cases" "new" "cdc" (some "people")
        = [cexRowA].filter (claimSelected "cases" "new" "cdc" (some "people")) :=
  ⟨by decide, query_variable_for_provider_spec [cexRowA] "cases" "new" "cdc" (some "people")
    (by decide)⟩

/-- C10: an empty-string unit behaves exactly like an omitted unit, in both
query helpers: the unit conjunct is applied only for a non-empty unit string,
so rows can never be selected by an empty unit value. -/
theorem unit_empty_behaves_as_omitted :
    (∀ (timeseries : List CcdRow) (vn meas prov : String),
        query_variable_for_provider timeseries vn meas prov (some "")
          = query_variable_for_provider timeseries vn meas prov none) ∧
    (∀ (v : ScraperVariable) (r : CcdRow), v.unit = "" →
        is_selected_data v r = claimSelectedNoUnit v r) ∧
    (∀ (v : ScraperVariable) (r : CcdRow), v.unit ≠ "" →
        is_selected_data v r = (claimSelectedNoUnit v r && (r.unit == v.unit))) := by
  refine ⟨fun ts vn meas prov => ?_, fun v r h => ?_, fun v r h => ?_⟩
  · unfold query_variable_for_provider
    apply List.filter_congr
    intro r _
    simp
  · unfold is_selected_data claimSelectedNoUnit
    rw [if_pos h, Bool.and_true]
  · unfold is_selected_data claimSelectedNoUnit
    rw [if_neg h]

theorem unit_empty_behaves_as_omitted_witness :
    (query_variable_for_provider [cexRowA] "cases" "new" "cdc" (some "")
        = query_variable_for_provider [cexRowA] "cases" "new" "cdc" none) ∧
    (is_selected_data cexVariable cexRowA = claimSelectedNoUnit cexVariable cexRowA) ∧
    (is_selected_data { cexVariable with unit := "people" } cexRowA
        = (claimSelectedNoUnit { cexVariable with unit := "people" } cexRowA
            && (cexRowA.unit == "people"))) :=
  ⟨unit_empty_behaves_as_omitted.1 [cexRowA] "cases" "new" "cdc",
   unit_empty_behaves_as_omitted.2.1 cexVariable cexRowA rfl,
   unit_empty_behaves_as_omitted.2.2 { cexVariable with unit := "people" } cexRowA (by decide)⟩

theorem getByValue_name (fields : FieldMapping) (c : String) (e : String × Option String)
    (h : getByValue fields c = some e) : e.1 = c := by
  have := List.find?_some h
  simpa using this

theorem matchedCanon_eq_claimCanonical (fields : FieldMapping) (c : String) (hc : c ≠ "") :
    matchedCanon fields c = claimCanonical fields c := by
  unfold matchedCanon claimCanonical
  cases hg : getByValue fields c with
  | none => rfl
  | some e =>
    obtain ⟨v, cf⟩ := e
    have hv : v = c := getByValue_name fields c _ hg
    cases cf with
    | none => rfl
    | some s =>
      simp only []
      rw [if_neg (hv ▸ hc)]
      rfl

theorem matchedCanon_isSome_of_claim (fields : FieldMapping) (c : String)
    (hc : c ≠ "") (h : claimCanonical fields c ≠ none) :
    (matchedCanon fields c).isSome := by
  rw [matchedCanon_eq_claimCanonical fields c hc]
  exact Option.isSome_iff_ne_none.2 h

theorem buildRename_ok (fields : FieldMapping) (cols : List String)
    (acc : List (String × String))
    (hnd : (cols.filter (fun c => (matchedCanon fields c).isSome)).Nodup)
    (hdisj : ∀ c ∈ cols, (matchedCanon fields c).isSome → c ∉ acc.map Prod.fst) :
    buildRename fields cols acc = .ok (acc ++ renameListOf fields cols) := by
  induction cols generalizing acc with
  | nil => simp [buildRename, renameListOf]
  | cons col rest ih =>
    rw [buildRename]
    cases hm : matchedCanon fields col with
    | none =>
      have hfilter : (col :: rest).filter (fun c => (matchedCanon fields c).isSome)
          = rest.filter (fun c => (matchedCanon fields c).isSome) :=
        List.filter_cons_of_neg (by simp [hm])
      rw [hfilter] at hnd
      simp only []
      rw [ih acc hnd (fun c hc hs => hdisj c (List.mem_cons_of_mem _ hc) hs)]
      have hrl : renameListOf fields (col :: rest) = renameListOf fields rest := by
        simp [renameListOf, List.filterMap_cons, hm]
      rw [hrl]
    | some cf =>
      have hsome : (matchedCanon fields col).isSome := by simp [hm]
      have hnotin : col ∉ acc.map Prod.fst := hdisj col (List.mem_cons_self _ _) hsome
      simp only []
      rw [if_neg (by simpa using hnotin)]
      have hfilter : (col :: rest).filter (fun c => (matchedCanon fields c).isSome)
          = col :: rest.filter (fun c => (matchedCanon fields c).isSome) :=
        List.filter_cons_of_pos (by simpa using hsome)
      rw [hfilter, List.nodup_cons] at hnd
      have hdisj' : ∀ c ∈ rest, (matchedCanon fields c).isSome
          → c ∉ (acc ++ [(col, cf)]).map Prod.fst := by
        intro c hc hs
        rw [List.map_append, List.mem_append]
        rintro (h | h)
        · exact hdisj c (List.mem_cons_of_mem _ hc) hs h
        · have hcc : c = col := by simpa using h
          subst hcc
          exact hnd.1 (List.mem_filter.2 ⟨hc, by simpa using hs⟩)
      rw [ih (acc ++ [(col, cf)]) hnd.2 hdisj']
      have hrl : renameListOf fields (col :: rest) = (col, cf) :: renameListOf fields rest := by
        simp [renameListOf, List.filterMap_cons, hm]
      rw [hrl, List.append_assoc]
      rfl

theorem buildRename_ok_disjoint (fields : FieldMapping) (cols : List String)
    (acc : List (String × String)) (r : List (String × String))
    (h : buildRename fields cols acc = .ok r) :
    ∀ c ∈ cols, (matchedCanon fields c).isSome → c ∉ acc.map Prod.fst := by
  induction cols generalizing acc with
  | nil => intro c hc; exact absurd hc (List.not_mem_nil c)
  | cons col rest ih =>
    intro c hc hs
    rw [buildRename] at h
    cases hm : matchedCanon fields col with
    | none =>
      rw [hm] at h
      simp only [] at h
      rcases List.mem_cons.1 hc with rfl | hc'
      · rw [hm] at hs
        exact absurd hs (by simp)
      · exact ih acc h c hc' hs
    | some cf =>
      rw [hm] at h
      simp only [] at h
      by_cases hin : (acc.map Prod.fst).contains col
      · rw [if_pos hin] at h
        exact absurd h (by simp)
      · rw [if_neg hin] at h
        rcases List.mem_cons.1 hc with rfl | hc'
        · simpa using hin
        · intro hmem
          exact ih (acc ++ [(col, cf)]) h c hc' hs
            (by rw [List.map_append, List.mem_append]; exact Or.inl hmem)

theorem buildRename_ok_nodup (fields : FieldMapping) (cols : List String)
    (acc : List (String × String)) (r : List (String × String))
    (h : buildRename fields cols acc = .ok r) :
    (cols.filter (fun c => (matchedCanon fields c).isSome)).Nodup := by
  induction cols generalizing acc with
  | nil => simp
  | cons col rest ih =>
    rw [buildRename] at h
    cases hm : matchedCanon fields col with
    | none =>
      rw [hm] at h
      simp only [] at h
      rw [List.filter_cons_of_neg (by simp [hm])]
      exact ih acc h
    | some cf =>
      rw [hm] at h
      simp only [] at h
      by_cases hin : (acc.map Prod.fst).contains col
      · rw [if_pos hin] at h
        exact absurd h (by simp)
      · rw [if_neg hin] at h
        rw [List.filter_cons_of_pos (by simp [hm]), List.nodup_cons]
        refine ⟨?_, ih (acc ++ [(col, cf)]) h⟩
        intro hcol
        have hcol' : col ∈ rest := (List.mem_filter.1 hcol).1
        have hs : (matchedCanon fields col).isSome := by
          simpa using (List.mem_filter.1 hcol).2
        exact buildRename_ok_disjoint fields rest (acc ++ [(col, cf)]) r h col hcol' hs
          (by rw [List.map_append, List.mem_append]; right; simp)

theorem buildRename_error_shape (fields : FieldMapping) (cols : List String)
    (acc : List (String × String)) (s : String)
    (h : buildRename fields cols acc = .error s) :
    ∃ f, s = "Field " ++ f ++ " misconfigured" := by
  induction cols generalizing acc with
  | nil => exact absurd h (by simp [buildRename])
  | cons col rest ih =>
    rw [buildRename] at h
    cases hm : matchedCanon fields col with
    | none =>
      rw [hm] at h
      simp only [] at h
      exact ih acc h
    | some cf =>
      rw [hm] at h
      simp only [] at h
      by_cases hin : (acc.map Prod.fst).contains col
      · rw [if_pos hin] at h
        exact ⟨col, by simpa using h.symm⟩
      · rw [if_neg hin] at h
        exact ih (acc ++ [(col, cf)]) h

theorem renameListOf_map_fst (fields : FieldMapping) (cols : List String) :
    (renameListOf fields cols).map Prod.fst
      = cols.filter (fun c => (matchedCanon fields c).isSome) := by
  induction cols with
  | nil => rfl
  | cons col rest ih =>
    cases hm : matchedCanon fields col with
    | none =>
      rw [List.filter_cons_of_neg (by simp [hm])]
      rw [show renameListOf fields (col :: rest) = renameListOf fields rest by
        simp [renameListOf, List.filterMap_cons, hm]]
      exact ih
    | some cf =>
      rw [List.filter_cons_of_pos (by simp [hm])]
      rw [show renameListOf fields (col :: rest) = (col, cf) :: renameListOf fields rest by
        simp [renameListOf, List.filterMap_cons, hm]]
      rw [List.map_cons, ih]

theorem selectCols_ok (cols : List (String × List Val)) (keys : List String)
    (h : ∀ k ∈ keys, ∃ c ∈ cols, c.1 = k) :
    selectCols cols keys = .ok (keys.flatMap (fun k => cols.filter (fun c => c.1 == k))) := by
  induction keys with
  | nil => simp [selectCols]
  | cons k rest ih =>
    obtain ⟨c, hc, hck⟩ := h k (List.mem_cons_self _ _)
    have hmem : c ∈ cols.filter (fun x => x.1 == k) := List.mem_filter.2 ⟨hc, by simp [hck]⟩
    have hne : (cols.filter (fun x => x.1 == k)).isEmpty = false :=
      List.isEmpty_eq_false.2 (List.ne_nil_of_mem hmem)
    rw [selectCols]
    simp only [hne]
    rw [if_neg (by simp)]
    rw [ih (fun k' hk' => h k' (List.mem_cons_of_mem _ hk'))]
    simp

theorem filter_name_eq_singleton (cols : List (String × List Val)) (c : String × List Val)
    (hnd : (cols.map Prod.fst).Nodup) (hc : c ∈ cols) :
    cols.filter (fun x => x.1 == c.1) = [c] := by
  induction cols with
  | nil => exact absurd hc (List.not_mem_nil c)
  | cons d rest ih =>
    rw [List.map_cons, List.nodup_cons] at hnd
    rcases List.mem_cons.1 hc with rfl | hc'
    · rw [List.filter_cons_of_pos (by simp)]
      have hrest : rest.filter (fun x => x.1 == c.1) = [] := by
        rw [List.filter_eq_nil_iff]
        intro x hx
        simp only [beq_iff_eq]
        intro hx1
        exact hnd.1 (hx1 ▸ List.mem_map_of_mem Prod.fst hx)
      rw [hrest]
    · have hd : d.1 ≠ c.1 := by
        intro he
        exact hnd.1 (he ▸ List.mem_map_of_mem Prod.fst hc')
      rw [List.filter_cons_of_neg (by simpa using hd)]
      exact ih hnd.2 hc'

theorem flatMap_filter_names (cols : List (String × List Val))
    (l : List (String × List Val))
    (hnd : (cols.map Prod.fst).Nodup) (hl : ∀ c ∈ l, c ∈ cols) :
    (l.map Prod.fst).flatMap (fun k => cols.filter (fun x => x.1 == k)) = l := by
  induction l with
  | nil => simp
  | cons c rest ih =>
    rw [List.map_cons, List.flatMap_cons,
      filter_name_eq_singleton cols c hnd (hl c (List.mem_cons_self _ _)),
      ih (fun x hx => hl x (List.mem_cons_of_mem _ hx))]
    rfl

theorem rename_fields_result_eq (fields : FieldMapping) (already : List String)
    (ce : Bool) (df : DataFrame)
    (hnd : (df.cols.map Prod.fst).Nodup)
    (hsub : ∀ f ∈ already, f ∈ df.cols.map Prod.fst)
    (hdisj : ∀ c ∈ df.cols.map Prod.fst, (matchedCanon fields c).isSome → c ∉ already) :
    (rename_fields df fields already ce).result =
      .ok ⟨(alreadyCols already df.cols ++ matchedCols fields df.cols).map
            (renamedCol fields already)⟩ := by
  have hkeys0 : (already.map (fun f => (f, f))).map Prod.fst = already := by
    rw [List.map_map]
    exact List.map_id _
  have hndf : ((df.cols.map Prod.fst).filter
      (fun c => (matchedCanon fields c).isSome)).Nodup := hnd.filter _
  have hbr : buildRename fields (df.cols.map Prod.fst) (already.map (fun f => (f, f)))
      = .ok ((already.map (fun f => (f, f))) ++ renameListOf fields (df.cols.map Prod.fst)) :=
    buildRename_ok fields _ _ hndf (by
      intro c hc hs
      rw [hkeys0]
      exact hdisj c hc hs)
  have hfiltmap : (df.cols.map Prod.fst).filter (fun c => (matchedCanon fields c).isSome)
      = (matchedCols fields df.cols).map Prod.fst := by
    rw [List.filter_map]
    rfl
  have hkeys : ((already.map (fun f => (f, f))) ++ renameListOf fields (df.cols.map Prod.fst)).map
        Prod.fst
      = already ++ (matchedCols fields df.cols).map Prod.fst := by
    rw [List.map_append, hkeys0, renameListOf_map_fst, hfiltmap]
  have hsel : selectCols df.cols
        (((already.map (fun f => (f, f))) ++ renameListOf fields (df.cols.map Prod.fst)).map
          Prod.fst)
      = .ok (alreadyCols already df.cols ++ matchedCols fields df.cols) := by
    rw [hkeys]
    rw [selectCols_ok df.cols _ (by
      intro k hk
      rcases List.mem_append.1 hk with hk | hk
      · obtain ⟨c, hc, hck⟩ := List.mem_map.1 (hsub k hk)
        exact ⟨c, hc, hck⟩
      · obtain ⟨c, hc, hck⟩ := List.mem_map.1 hk
        exact ⟨c, List.mem_of_mem_filter hc, hck⟩)]
    rw [List.flatMap_append]
    rw [flatMap_filter_names df.cols (matchedCols fields df.cols) hnd
      (fun c hc => List.mem_of_mem_filter hc)]
    rfl
  have happly : applyRename
        ((already.map (fun f => (f, f))) ++ renameListOf fields (df.cols.map Prod.fst))
        (alreadyCols already df.cols ++ matchedCols fields df.cols)
      = (alreadyCols already df.cols ++ matchedCols fields df.cols).map
          (renamedCol fields already) := by
    unfold applyRename
    rw [List.map_inj_left]
    intro c hcm
    have hcase : (c.1 ∈ already ∧ c ∈ df.cols) ∨
        ((matchedCanon fields c.1).isSome ∧ c ∈ df.cols ∧ c.1 ∉ already) := by
      rcases List.mem_append.1 hcm with hA | hM
      · obtain ⟨f, hf, hcf⟩ := List.mem_flatMap.1 hA
        have h1 := List.mem_filter.1 hcf
        have hc1 : c.1 = f := by simpa using h1.2
        exact Or.inl ⟨hc1 ▸ hf, h1.1⟩
      · have h1 := List.mem_filter.1 hM
        have hs : (matchedCanon fields c.1).isSome := by simpa using h1.2
        exact Or.inr ⟨hs, h1.1,
          hdisj c.1 (List.mem_map_of_mem Prod.fst h1.1) hs⟩
    rw [List.find?_append]
    have hfindid : (already.map (fun f => (f, f))).find? (fun e => e.1 == c.1)
        = (already.find? (fun f => f == c.1)).map (fun f => (f, f)) := by
      rw [List.find?_map]
      rfl
    rcases hcase with ⟨hin, _⟩ | ⟨hs, hccols, hnotin⟩
    · have : already.find? (fun f => f == c.1) = some c.1 :=
        (find?_beq_eq_some_iff already c.1 c.1).2 ⟨rfl, hin⟩
      rw [hfindid, this]
      simp [renamedCol, hin]
    · have hfid : already.find? (fun f => f == c.1) = none := by
        rw [List.find?_eq_none]
        intro f hf hbeq
        exact hnotin ((by simpa using hbeq : f = c.1) ▸ hf)
      obtain ⟨cf, hcf⟩ := Option.isSome_iff_exists.1 hs
      have hmemrl : (c.1, cf) ∈ renameListOf fields (df.cols.map Prod.fst) := by
        unfold renameListOf
        rw [List.mem_filterMap]
        exact ⟨c.1, List.mem_map_of_mem Prod.fst hccols, by simp [hcf]⟩
      have hndrl : ((renameListOf fields (df.cols.map Prod.fst)).map Prod.fst).Nodup := by
        rw [renameListOf_map_fst]
        exact hndf
      have hfrl : (renameListOf fields (df.cols.map Prod.fst)).find? (fun e => e.1 == c.1)
          = some (c.1, cf) :=
        (find?_key_eq_some_iff _ c.1 hndrl (c.1, cf)).2 ⟨hmemrl, rfl⟩
      rw [hfindid, hfid, hfrl]
      simp only [Option.map_none, Option.or]
      simp [renamedCol, hnotin, hcf]
  show (match buildRename fields (df.cols.map Prod.fst) (already.map (fun f => (f, f))) with
    | Except.error e => Except.error e
    | Except.ok rename =>
      match selectCols df.cols (rename.map Prod.fst) with
      | Except.error e => Except.error e
      | Except.ok sel => Except.ok (⟨applyRename rename sel⟩ : DataFrame)) = _
  rw [hbr]
  simp only []
  rw [hsel]
  simp only []
  rw [happly]

theorem matchedCols_map_renamed (fields : FieldMapping) (cols : List (String × List Val)) :
    (matchedCols fields cols).map (renamedCol fields [])
      = cols.filterMap (fun c => (matchedCanon fields c.1).map (fun cf => (cf, c.2))) := by
  induction cols with
  | nil => rfl
  | cons c rest ih =>
    cases hm : matchedCanon fields c.1 with
    | none =>
      rw [show matchedCols fields (c :: rest) = matchedCols fields rest by
        simp [matchedCols, List.filter_cons, hm]]
      rw [show (c :: rest).filterMap
            (fun x => (matchedCanon fields x.1).map (fun cf => (cf, x.2)))
          = rest.filterMap (fun x => (matchedCanon fields x.1).map (fun cf => (cf, x.2))) by
        simp [List.filterMap_cons, hm]]
      exact ih
    | some cf =>
      rw [show matchedCols fields (c :: rest) = c :: matchedCols fields rest by
        simp [matchedCols, List.filter_cons, hm]]
      rw [show (c :: rest).filterMap
            (fun x => (matchedCanon fields x.1).map (fun cf => (cf, x.2)))
          = (cf, c.2) :: rest.filterMap
              (fun x => (matchedCanon fields x.1).map (fun cf => (cf, x.2))) by
        simp [List.filterMap_cons, hm]]
      rw [List.map_cons, ih]
      rw [show renamedCol fields [] c = (cf, c.2) by simp [renamedCol, hm]]

/-- C1: for a mapping in which no two entries share a canonical field and a
table with distinct, non-empty column names, `rename_fields` with an empty
`already_transformed_fields` returns the table whose columns are exactly the
canonical values of the columns matching an entry with a non-absent canonical
field, values copied unchanged; every other column is dropped. -/
theorem reconcile_empty_already_spec (fields : FieldMapping) (df : DataFrame) (ce : Bool)
    (hshare : (fields.filterMap Prod.snd).Nodup)
    (hnd : (df.cols.map Prod.fst).Nodup)
    (hne : ∀ c ∈ df.cols.map Prod.fst, c ≠ "") :
    (rename_fields df fields [] ce).result =
      .ok ⟨df.cols.filterMap (fun c => (claimCanonical fields c.1).map (fun cf => (cf, c.2)))⟩ := by
  rw [rename_fields_result_eq fields [] ce df hnd
    (fun f hf => absurd hf (List.not_mem_nil f))
    (fun c _ _ => List.not_mem_nil c)]
  have hA : alreadyCols [] df.cols = [] := rfl
  rw [hA, List.nil_append, matchedCols_map_renamed]
  have hcong : df.cols.filterMap (fun c => (matchedCanon fields c.1).map (fun cf => (cf, c.2)))
      = df.cols.filterMap (fun c => (claimCanonical fields c.1).map (fun cf => (cf, c.2))) :=
    List.filterMap_congr (fun c hc => by
      rw [matchedCanon_eq_claimCanonical fields c.1
        (hne c.1 (List.mem_map_of_mem Prod.fst hc))])
  rw [hcong]

theorem reconcile_empty_already_spec_witness :
    (([("cases", some "positive_tests"), ("foo", none)] : FieldMapping).filterMap
        Prod.snd).Nodup ∧
    (((⟨[("cases", [10]), ("bar", [7])]⟩ : DataFrame).cols.map Prod.fst).Nodup) ∧
    (∀ c ∈ (⟨[("cases", [10]), ("bar", [7])]⟩ : DataFrame).cols.map Prod.fst, c ≠ "") ∧
    (rename_fields ⟨[("cases", [10]), ("bar", [7])]⟩
        [("cases", some "positive_tests"), ("foo", none)] [] true).result =
      .ok ⟨[("cases", ([10] : List Val)), ("bar", [7])].filterMap
        (fun c => (claimCanonical [("cases", some "positive_tests"), ("foo", none)] c.1).map
          (fun cf => (cf, c.2)))⟩ :=
  ⟨by decide, by decide, by decide,
    reconcile_empty_already_spec [("cases", some "positive_tests"), ("foo", none)]
      ⟨[("cases", [10]), ("bar", [7])]⟩ true (by decide) (by decide) (by decide)⟩

/-- C2 counterexample: a mapping whose two entries map the distinct native
names `"a"` and `"b"` to the same canonical field `"x"`, applied to a table
containing both columns, produces no configuration fault at all: the call
returns a table in which both columns were renamed to `"x"`. -/
theorem rename_shared_canonical_cex :
    ("a", some "x") ∈ ([("a", some "x"), ("b", some "x")] : FieldMapping) ∧
    ("b", some "x") ∈ ([("a", some "x"), ("b", some "x")] : FieldMapping) ∧
    ("a" : String) ≠ "b" ∧
    (rename_fields ⟨[("a", [1]), ("b", [2])]⟩ [("a", some "x"), ("b", some "x")] [] true).result
      = .ok ⟨[("x", [1]), ("x", [2])]⟩ :=
  ⟨by decide, by decide, by decide, by decide⟩

/-- C2 amended: the collision check of `rename_fields` keys on native names,
not canonical targets, so a mapping with two entries sharing a canonical field
raises no configuration fault: whenever the table's columns are distinct,
disjoint from `already_transformed_fields`, and cover it, the call returns
normally (both shared-canonical columns are then renamed to the same name). -/
theorem rename_shared_canonical_amended (fields : FieldMapping) (already : List String)
    (ce : Bool) (df : DataFrame)
    (hnd : (df.cols.map Prod.fst).Nodup)
    (hsub : ∀ f ∈ already, f ∈ df.cols.map Prod.fst)
    (hdisj : ∀ c ∈ df.cols.map Prod.fst, (matchedCanon fields c).isSome → c ∉ already) :
    ∃ d, (rename_fields df fields already ce).result = .ok d :=
  ⟨_, rename_fields_result_eq fields already ce df hnd hsub hdisj⟩

theorem rename_shared_canonical_amended_witness :
    ∃ d, (rename_fields ⟨[("a", [1]), ("b", [2])]⟩
      [("a", some "x"), ("b", some "x")] [] true).result = .ok d :=
  rename_shared_canonical_amended [("a", some "x"), ("b", some "x")] [] true
    ⟨[("a", [1]), ("b", [2])]⟩ (by decide) (by decide) (by decide)

theorem alreadyCols_perm_eq (already : List String) (cols₁ cols₂ : List (String × List Val))
    (hperm : cols₂.Perm cols₁) (hnd : (cols₁.map Prod.fst).Nodup)
    (hsub : ∀ f ∈ already, f ∈ cols₁.map Prod.fst) :
    alreadyCols already cols₂ = alreadyCols already cols₁ := by
  unfold alreadyCols
  induction already with
  | nil => rfl
  | cons f rest ih =>
    rw [List.flatMap_cons, List.flatMap_cons,
      ih (fun g hg => hsub g (List.mem_cons_of_mem _ hg))]
    congr 1
    obtain ⟨c, hc, hcf⟩ := List.mem_map.1 (hsub f (List.mem_cons_self _ _))
    subst hcf
    have hnd₂ : (cols₂.map Prod.fst).Nodup := (hperm.map Prod.fst).nodup_iff.2 hnd
    rw [filter_name_eq_singleton cols₁ c hnd hc,
      filter_name_eq_singleton cols₂ c hnd₂ (hperm.mem_iff.2 hc)]

/-- C5 counterexample: swapping the two columns of a table before calling
`rename_fields` yields a different output table — the output columns follow the
input column order, so the claim's "identical columns and identical values"
fails on the order. -/
theorem reconcile_perm_cex :
    ((⟨[("deaths", [2]), ("cases", [1])]⟩ : DataFrame).cols).Perm
      ((⟨[("cases", [1]), ("deaths", [2])]⟩ : DataFrame).cols) ∧
    (rename_fields ⟨[("deaths", [2]), ("cases", [1])]⟩
        [("cases", some "positive_tests"), ("deaths", some "deaths")] [] true)
      ≠ (rename_fields ⟨[("cases", [1]), ("deaths", [2])]⟩
        [("cases", some "positive_tests"), ("deaths", some "deaths")] [] true) :=
  ⟨List.Perm.swap ("cases", [1]) ("deaths", [2]) [], by decide⟩

/-- C5 amended: permuting a table's columns before `rename_fields` yields an
output holding the same columns with the same values, up to column order: both
calls succeed and the output column lists are permutations of each other
(the matched columns follow the input column order). -/
theorem reconcile_perm_amended (fields : FieldMapping) (already : List String) (ce : Bool)
    (df₁ df₂ : DataFrame) (hperm : df₂.cols.Perm df₁.cols)
    (hnd : (df₁.cols.map Prod.fst).Nodup)
    (hsub : ∀ f ∈ already, f ∈ df₁.cols.map Prod.fst)
    (hdisj : ∀ c ∈ df₁.cols.map Prod.fst, (matchedCanon fields c).isSome → c ∉ already) :
    ∃ d₁ d₂ : DataFrame,
      (rename_fields df₁ fields already ce).result = .ok d₁ ∧
      (rename_fields df₂ fields already ce).result = .ok d₂ ∧
      d₂.cols.Perm d₁.cols := by
  have hpermf := hperm.map Prod.fst
  have hnd₂ : (df₂.cols.map Prod.fst).Nodup := hpermf.nodup_iff.2 hnd
  have hsub₂ : ∀ f ∈ already, f ∈ df₂.cols.map Prod.fst :=
    fun f hf => hpermf.mem_iff.2 (hsub f hf)
  have hdisj₂ : ∀ c ∈ df₂.cols.map Prod.fst, (matchedCanon fields c).isSome → c ∉ already :=
    fun c hc hs => hdisj c (hpermf.mem_iff.1 hc) hs
  refine ⟨_, _, rename_fields_result_eq fields already ce df₁ hnd hsub hdisj,
    rename_fields_result_eq fields already ce df₂ hnd₂ hsub₂ hdisj₂, ?_⟩
  rw [alreadyCols_perm_eq already df₁.cols df₂.cols hperm hnd hsub]
  exact ((hperm.filter _).append_left _).map _

theorem reconcile_perm_amended_witness :
    ∃ d₁ d₂ : DataFrame,
      (rename_fields ⟨[("cases", [1]), ("deaths", [2])]⟩
          [("cases", some "positive_tests"), ("deaths", some "deaths")] [] true).result
        = .ok d₁ ∧
      (rename_fields ⟨[("deaths", [2]), ("cases", [1])]⟩
          [("cases", some "positive_tests"), ("deaths", some "deaths")] [] true).result
        = .ok d₂ ∧
      d₂.cols.Perm d₁.cols :=
  reconcile_perm_amended [("cases", some "positive_tests"), ("deaths", some "deaths")] [] true
    ⟨[("cases", [1]), ("deaths", [2])]⟩ ⟨[("deaths", [2]), ("cases", [1])]⟩
    (List.Perm.swap ("cases", [1]) ("deaths", [2]) []) (by decide) (by decide) (by decide)

/-- C9: whenever some non-empty column name of the table matches a mapping
entry with a non-absent canonical field and is either listed in
`already_transformed_fields` or duplicated among the table's columns, the
native name is already a key of the rename dict when the loop reaches it, so
`rename_fields` raises the `AssertionError` "misconfigured". -/
theorem rename_key_collision_raises (fields : FieldMapping) (already : List String)
    (ce : Bool) (df : DataFrame)
    (h : ∃ c, claimCanonical fields c ≠ none ∧ c ≠ "" ∧ c ∈ df.cols.map Prod.fst ∧
        (c ∈ already ∨ 2 ≤ (df.cols.map Prod.fst).count c)) :
    ∃ f, (rename_fields df fields already ce).result
      = .error ("Field " ++ f ++ " misconfigured") := by
  obtain ⟨c, hclaim, hcne, hccols, hcase⟩ := h
  have hs : (matchedCanon fields c).isSome := matchedCanon_isSome_of_claim fields c hcne hclaim
  cases hbr : buildRename fields (df.cols.map Prod.fst) (already.map (fun f => (f, f))) with
  | error s =>
    obtain ⟨f, hf⟩ := buildRename_error_shape fields _ _ s hbr
    refine ⟨f, ?_⟩
    show (match buildRename fields (df.cols.map Prod.fst) (already.map (fun g => (g, g))) with
      | Except.error e => Except.error e
      | Except.ok rename =>
        match selectCols df.cols (rename.map Prod.fst) with
        | Except.error e => Except.error e
        | Except.ok sel => Except.ok (⟨applyRename rename sel⟩ : DataFrame)) = _
    rw [hbr]
    simp only []
    rw [hf]
  | ok r =>
    exfalso
    rcases hcase with hin | hcount
    · have hnotin := buildRename_ok_disjoint fields _ _ r hbr c hccols hs
      apply hnotin
      rw [List.map_map]
      simpa using hin
    · have hndf := buildRename_ok_nodup fields _ _ r hbr
      have hle := (List.nodup_iff_count_le_one.1 hndf) c
      rw [List.count_filter (by simpa using hs)] at hle
      omega

theorem rename_key_collision_raises_witness :
    ∃ f, (rename_fields ⟨[("date", [5])]⟩ [("date", some "date")] ["date"] true).result
      = .error ("Field " ++ f ++ " misconfigured") :=
  rename_key_collision_raises [("date", some "date")] ["date"] true ⟨[("date", [5])]⟩
    ⟨"date", by decide, by decide, by decide, by decide⟩

theorem mem_extraFields_iff (fields : FieldMapping) (already : List String)
    (colNames : List String) (c : String) :
    c ∈ extraFields fields already colNames ↔
      (c ∈ colNames ∧ getByValue fields c = none ∧ c ∉ already) := by
  unfold extraFields
  rw [List.mem_filter, List.mem_dedup]
  simp [Option.isNone_iff_eq_none, and_assoc]

theorem mem_missingFields_iff (fields : FieldMapping) (colNames : List String) (v : String) :
    v ∈ missingFields fields colNames ↔ (v ∈ fields.map Prod.fst ∧ v ∉ colNames) := by
  unfold missingFields
  rw [List.mem_filter, List.mem_dedup]
  simp

/-- C6: with `check_extra_fields` enabled, the "extra columns" warning fires if
and only if some column of the table is neither a native name of the mapping
nor an already-transformed field; the warning names exactly those columns, the
operation is not failed by it, and a suggestion line (the column name with
underscores inserted before capitals, upper-cased) is printed per column. -/
theorem extra_warning_iff (fields : FieldMapping) (already : List String) (df : DataFrame) :
    ((rename_fields df fields already true).extraWarning ≠ none ↔
      ∃ c ∈ df.cols.map Prod.fst, getByValue fields c = none ∧ c ∉ already) ∧
    (∀ c : String, c ∈ ((rename_fields df fields already true).extraWarning.getD [])
      ↔ (c ∈ df.cols.map Prod.fst ∧ getByValue fields c = none ∧ c ∉ already)) ∧
    ((rename_fields df fields already true).suggestions
      = ((rename_fields df fields already true).extraWarning.getD []).map suggestionLine) := by
  have hEW : (rename_fields df fields already true).extraWarning
      = if true && !(extraFields fields already (df.cols.map Prod.fst)).isEmpty
        then some (extraFields fields already (df.cols.map Prod.fst)) else none := rfl
  have hSG : (rename_fields df fields already true).suggestions
      = if true && !(extraFields fields already (df.cols.map Prod.fst)).isEmpty
        then (extraFields fields already (df.cols.map Prod.fst)).map suggestionLine
        else [] := rfl
  by_cases hX : extraFields fields already (df.cols.map Prod.fst) = []
  · rw [hX] at hEW hSG
    simp only [List.isEmpty_nil, Bool.not_true, Bool.and_false, if_false] at hEW hSG
    refine ⟨?_, ?_, ?_⟩
    · rw [hEW]
      constructor
      · intro hcontra
        exact absurd rfl hcontra
      · rintro ⟨c, hc, hnone, hnin⟩
        have hmem : c ∈ extraFields fields already (df.cols.map Prod.fst) :=
          (mem_extraFields_iff fields already _ c).2 ⟨hc, hnone, hnin⟩
        rw [hX] at hmem
        exact absurd hmem (List.not_mem_nil c)
    · intro c
      rw [hEW]
      constructor
      · intro hc
        exact absurd hc (List.not_mem_nil c)
      · rintro ⟨hc, hnone, hnin⟩
        have hmem : c ∈ extraFields fields already (df.cols.map Prod.fst) :=
          (mem_extraFields_iff fields already _ c).2 ⟨hc, hnone, hnin⟩
        rw [hX] at hmem
        exact absurd hmem (List.not_mem_nil c)
    · rw [hEW, hSG]
      simp
  · have hne : (extraFields fields already (df.cols.map Prod.fst)).isEmpty = false :=
      List.isEmpty_eq_false.2 hX
    rw [hne] at hEW hSG
    simp only [Bool.not_false, Bool.and_true, if_true] at hEW hSG
    refine ⟨?_, ?_, ?_⟩
    · rw [hEW]
      constructor
      · intro _
        obtain ⟨c, hc⟩ := List.exists_mem_of_ne_nil _ hX
        obtain ⟨h1, h2, h3⟩ := (mem_extraFields_iff fields already _ c).1 hc
        exact ⟨c, h1, h2, h3⟩
      · intro _
        simp
    · intro c
      rw [hEW]
      simp only [Option.getD_some]
      exact mem_extraFields_iff fields already _ c
    · rw [hEW, hSG]
      simp

theorem extra_warning_iff_witness :
    (rename_fields ⟨[("cases", [1]), ("bar", [2])]⟩ [("cases", some "cases")] []
        true).suggestions
      = ((rename_fields ⟨[("cases", [1]), ("bar", [2])]⟩ [("cases", some "cases")] []
          true).extraWarning.getD []).map suggestionLine :=
  (extra_warning_iff [("cases", some "cases")] [] ⟨[("cases", [1]), ("bar", [2])]⟩).2.2

/-- C3 counterexample: a mapping whose single entry `("foo", None)` carries no
canonical field, against a table with no columns, still fires the "missing
columns" warning naming `"foo"` — the code subtracts the columns from all
declared native names, not only those with a canonical field. -/
theorem missing_warning_cex :
    (∀ e ∈ ([("foo", none)] : FieldMapping), e.2 = none) ∧
    (rename_fields ⟨[]⟩ [("foo", none)] [] true).missingWarning = some ["foo"] :=
  ⟨by decide, by decide⟩

/-- C3 amended: the "missing columns" warning fires if and only if some
declared native name of the mapping — whether or not its entry carries a
canonical field — is absent from the table's columns, and it names exactly
those native names. -/
theorem missing_warning_iff (fields : FieldMapping) (already : List String) (ce : Bool)
    (df : DataFrame) :
    ((rename_fields df fields already ce).missingWarning ≠ none ↔
      ∃ e ∈ fields, e.1 ∉ df.cols.map Prod.fst) ∧
    (∀ v : String, v ∈ ((rename_fields df fields already ce).missingWarning.getD [])
      ↔ (v ∈ fields.map Prod.fst ∧ v ∉ df.cols.map Prod.fst)) := by
  have hMW : (rename_fields df fields already ce).missingWarning
      = if !(missingFields fields (df.cols.map Prod.fst)).isEmpty
        then some (missingFields fields (df.cols.map Prod.fst)) else none := rfl
  by_cases hX : missingFields fields (df.cols.map Prod.fst) = []
  · rw [hX] at hMW
    simp only [List.isEmpty_nil, Bool.not_true, if_false] at hMW
    refine ⟨?_, ?_⟩
    · rw [hMW]
      constructor
      · intro hcontra
        exact absurd rfl hcontra
      · rintro ⟨e, he, hnot⟩
        have hmem : e.1 ∈ missingFields fields (df.cols.map Prod.fst) :=
          (mem_missingFields_iff fields _ e.1).2 ⟨List.mem_map_of_mem Prod.fst he, hnot⟩
        rw [hX] at hmem
        exact absurd hmem (List.not_mem_nil e.1)
    · intro v
      rw [hMW]
      constructor
      · intro hv
        exact absurd hv (List.not_mem_nil v)
      · rintro ⟨hv, hnot⟩
        have hmem : v ∈ missingFields fields (df.cols.map Prod.fst) :=
          (mem_missingFields_iff fields _ v).2 ⟨hv, hnot⟩
        rw [hX] at hmem
        exact absurd hmem (List.not_mem_nil v)
  · have hne : (missingFields fields (df.cols.map Prod.fst)).isEmpty = false :=
      List.isEmpty_eq_false.2 hX
    rw [hne] at hMW
    simp only [Bool.not_false, if_true] at hMW
    refine ⟨?_, ?_⟩
    · rw [hMW]
      constructor
      · intro _
        obtain ⟨v, hv⟩ := List.exists_mem_of_ne_nil _ hX
        obtain ⟨h1, h2⟩ := (mem_missingFields_iff fields _ v).1 hv
        obtain ⟨e, he, hev⟩ := List.mem_map.1 h1
        exact ⟨e, he, hev ▸ h2⟩
      · intro _
        simp
    · intro v
      rw [hMW]
      simp only [Option.getD_some]
      exact mem_missingFields_iff fields _ v

theorem missing_warning_iff_witness :
    (rename_fields ⟨[]⟩ [("foo", none)] [] true).missingWarning ≠ none ↔
      ∃ e ∈ ([("foo", none)] : FieldMapping), e.1 ∉ (⟨[]⟩ : DataFrame).cols.map Prod.fst :=
  (missing_warning_iff [("foo", none)] [] true ⟨[]⟩).1

/-- C4 counterexample: two rows identical in location, date, location_type and
variable label but with the different values 1 and 3 do not make
`query_multiple_variables` raise: `pivot_table`'s default mean aggregation
silently resolves the cell to 2. -/
theorem qmv_duplicate_mean_cex :
    cexRowA.location = cexRowB.location ∧
    cexRowA.date = cexRowB.date ∧
    cexRowA.location_type = cexRowB.location_type ∧
    cexRowA.variable_name = cexRowB.variable_name ∧
    cexRowA.value ≠ cexRowB.value ∧
    query_multiple_variables [cexRowA, cexRowB] [cexVariable]
      = .ok [{ fips := "01", date := "2020-01-01", aggregate_level := "state",
               cells := [("cases", some 2)] }] := by
  refine ⟨rfl, rfl, rfl, rfl, by decide, ?_⟩
  have h1 : [cexVariable].flatMap (selectForVariable [cexRowA, cexRowB])
      = [cexRowA, cexRowB] := by decide
  simp only [query_multiple_variables, h1]
  norm_num [pivotKeys, pivotColumnNames, cellValues, meanVal, List.dedup, List.pwFilter,
    cexRowA, cexRowB]

/-- C4 amended: `query_multiple_variables` raises no fault on duplicate
(location, date, location_type, variable) rows — for every timeseries and
non-empty variable list it returns a wide table; duplicate cells are silently
aggregated by `pivot_table`'s default mean. -/
theorem qmv_no_fault (timeseries : List CcdRow) (vars : List ScraperVariable)
    (h : vars ≠ []) : ∃ t, query_multiple_variables timeseries vars = .ok t := by
  unfold query_multiple_variables
  rw [if_neg (by simp [h])]
  exact ⟨_, rfl⟩

theorem qmv_no_fault_witness :
    ∃ t, query_multiple_variables [cexRowA, cexRowB] [cexVariable] = .ok t :=
  qmv_no_fault [cexRowA, cexRowB] [cexVariable] (by decide)
